import Mathlib

/-!
Verification of the paginated result iterator of the gorc library
(package gorc, files src/unnamed/part_002, src/errors_gorc2.go,
src/kv_gorc2.go, src/unnamed/part_001).

The iterator state machine of src/unnamed/part_002 is embedded shallowly:
the Go struct fields become structure fields, slices become lists, Go
`int`/`int64` become `Nat`/`Int`, and the single external collaborator
(the page fetch performed through `client.jsonReply`, which issues one
HTTP GET and decodes the JSON page envelope) is modelled as a scripted
oracle: a `World` value carrying a reply script `fetcher : Nat -> FetchReply`,
the number of fetches performed so far, and the list of request paths
issued so far.  Every state-changing operation threads the `World` value,
so a theorem can count network fetches exactly.
-/

namespace Gorc

/-- The gorc2 `Client` (src/client.go, src/errors_gorc2.go).  The iterator
uses the client only to build `Collection` back references and to issue
page fetches; the HTTP transport itself is external, so only the plain
configuration fields are carried. -/
structure Client where
  APIHost : String
  authToken : String
deriving DecidableEq

/-- `Collection` (src/errors_gorc2.go lines 184-190): a name plus a back
reference to the owning client. -/
structure Collection where
  Name : String
  client : Client
deriving DecidableEq

/-- `Client.Collection` (src/errors_gorc2.go lines 202-207). -/
def Client.Collection (c : Client) (name : String) : Gorc.Collection :=
  { Name := name, client := c }

/-- Values of the Go `error` interface that reach the iterator: errors
produced by the fetch collaborator (`jsonReply`: non-200 statuses and
decode failures) and the `fmt.Errorf` values built by the accessors. -/
inductive GorcError where
  | httpError (status : Int) (message : String)
  | decodeError (message : String)
  | errorf (message : String)
deriving DecidableEq

/-- `jsonPath` (src/unnamed/part_002 lines 37-58).  The Go field `Type`
is spelled `Type_` because `Type` is reserved in Lean. -/
structure JsonPath where
  Collection : String
  Key : String
  Ordinal : Int
  Ref : String
  Timestamp : Int
  Tombstone : Bool
  Type_ : String
deriving DecidableEq

/-- `jsonListItem` (src/unnamed/part_002 lines 77-99).  `Distance` and
`Score` are `float32` in Go; the iterator only ever copies them verbatim
into results, so they are carried by an integer stand-in.  `Value` is the
raw JSON payload, kept as an uninterpreted string. -/
structure JsonListItem where
  Distance : Int
  Ordinal : Int
  Path : JsonPath
  RefTime : Int
  Score : Int
  Timestamp : Int
  Value : String
deriving DecidableEq

/-- `jsonList` (src/unnamed/part_002 lines 61-74): the decoded page
envelope. -/
structure JsonList where
  Count : Int
  TotalCount : Int
  Next : String
  Prev : String
  Results : List JsonListItem
deriving DecidableEq

/-- Go `time.Time` values built by the iterator are denoted by their
total count of nanoseconds since the epoch. -/
def timeUnix (sec nsec : Int) : Int :=
  sec * 1000000000 + nsec

/-- `Item` (src/item_gorc2.go lines 41-72). -/
structure Item where
  Collection : Gorc.Collection
  Distance : Int
  Key : String
  Ref : String
  Score : Int
  Tombstone : Bool
  Updated : Int
  Value : String
deriving DecidableEq

/-- `Event2` (src/unnamed/part_001 lines 50-71). -/
structure Event2 where
  Collection : Gorc.Collection
  Key : String
  Ordinal : Int
  Ref : String
  Timestamp : Int
  Type_ : String
  Value : String
deriving DecidableEq

/-- One scripted reply of the page-fetch collaborator
(`client.jsonReply("GET", i.next, nil, 200, &results)`): either the
decoded page envelope or an error. -/
inductive FetchReply where
  | ok (page : JsonList)
  | err (e : GorcError)

/-- The external world seen by the iterator: the reply script of the
fetch collaborator, the number of fetches performed so far, and the
request paths issued so far (in order). -/
structure World where
  fetcher : Nat → FetchReply
  calls : Nat
  requested : List String

/-- One fetch is performed: the reply counter advances and the request
path is recorded. -/
def World.consume (w : World) (path : String) : World :=
  { w with calls := w.calls + 1, requested := w.requested ++ [path] }

/-- `Iterator` (src/unnamed/part_002 lines 105-135). -/
structure Iterator where
  Error : Option GorcError
  TotalCount : Int
  client : Client
  done : Bool
  index : Nat
  iteratingEvents : Bool
  iteratingItems : Bool
  next : String
  results : List JsonListItem

/-- `strings.TrimPrefix(s, "/v0/")` as used at src/unnamed/part_002
line 156: drop the fixed API-version prefix when present.  Go tests
`strings.HasPrefix` and slices the prefix bytes off; since the prefix is
plain ASCII this is exactly a prefix test and drop on the character
list. -/
def trimPrefixV0 (s : String) : String :=
  if "/v0/".data.isPrefixOf s.data then String.mk (s.data.drop 4) else s

/-- `Iterator.fetchResults` (src/unnamed/part_002 lines 138-173).  The
call `i.client.jsonReply("GET", i.next, nil, 200, &results)` is the
oracle step: it consumes the next scripted reply and records the
requested path. -/
def Iterator.fetchResults (i : Iterator) (w : World) : Bool × Iterator × World :=
  if i.next = "" then
    (false, { i with done := true }, w)
  else
    match w.fetcher w.calls with
    | FetchReply.err e => (false, { i with Error := some e }, w.consume i.next)
    | FetchReply.ok page =>
      let i1 := { i with next := trimPrefixV0 page.Next, results := page.Results }
      let i2 :=
        if page.Results.length = 0 then { i1 with done := true }
        else { i1 with index := 0 }
      let i3 :=
        if page.TotalCount ≠ 0 then { i2 with TotalCount := page.TotalCount } else i2
      (!i3.done, i3, w.consume i.next)

/-- `Iterator.Next` (src/unnamed/part_002 lines 304-319). -/
def Iterator.Next (i : Iterator) (w : World) : Bool × Iterator × World :=
  if i.done || i.Error.isSome then
    (false, i, w)
  else if (i.index : Int) < (i.results.length : Int) - 1 then
    (true, { i with index := i.index + 1 }, w)
  else
    i.fetchResults w

/-- `Iterator.NextPage` (src/unnamed/part_002 lines 326-334). -/
def Iterator.NextPage (i : Iterator) (w : World) : Bool × Iterator × World :=
  if i.done || i.Error.isSome then
    (false, i, w)
  else
    i.fetchResults w

/-- Outcome of an accessor call: the Go function either panics (slice
index out of range, or `make` with a negative length), returns an error
value, or succeeds. -/
inductive GetOutcome (α : Type) where
  | panics
  | failure (e : GorcError)
  | ok (a : α)
deriving DecidableEq

/-- The `Item` built from one raw entry, shared by `Get` and `GetPage`
(src/unnamed/part_002 lines 185-197 and 219-232).  Go `/` and `%` on
`int64` truncate toward zero, hence `Int.tdiv` and `Int.tmod`. -/
def itemFromListItem (c : Client) (r : JsonListItem) : Item :=
  { Collection := c.Collection r.Path.Collection
    Distance := r.Distance
    Key := r.Path.Key
    Ref := r.Path.Ref
    Score := r.Score
    Tombstone := r.Path.Tombstone
    Updated := timeUnix (r.RefTime.tdiv 1000) ((r.RefTime.tmod 1000) * 1000000)
    Value := r.Value }

/-- The `Event2` built from one raw entry, shared by `GetEvent` and
`GetEventPage` (src/unnamed/part_002 lines 247-258 and 279-291). -/
def event2FromListItem (c : Client) (r : JsonListItem) : Event2 :=
  { Collection := c.Collection r.Path.Collection
    Key := r.Path.Key
    Ordinal := r.Path.Ordinal
    Ref := r.Path.Ref
    Timestamp := timeUnix (r.Timestamp.tdiv 1000) ((r.Timestamp.tmod 1000) * 1000000)
    Type_ := r.Path.Type_
    Value := r.Value }

/-- `Iterator.Get` (src/unnamed/part_002 lines 181-206).  The indexing
`i.results[i.index]` panics when the index is out of range.  The optional
decoding of the payload into the caller supplied out-parameter is the
external JSON collaborator and is not modelled; it does not touch the
iterator state. -/
def Iterator.Get (i : Iterator) : GetOutcome Item :=
  if i.iteratingItems ≠ true then
    GetOutcome.failure (GorcError.errorf "Not an Item Iterator.")
  else
    match i.results[i.index]? with
    | none => GetOutcome.panics
    | some r => GetOutcome.ok (itemFromListItem i.client r)

/-- `Iterator.GetPage` (src/unnamed/part_002 lines 213-237).  The Go code
allocates `make([]*Item, len(i.results)-i.index)` (a panic when that
length is negative) and then drains the buffered page from `index` to the
end, leaving `index` equal to `len(i.results)`. -/
def Iterator.GetPage (i : Iterator) : GetOutcome (List Item) × Iterator :=
  if i.iteratingItems ≠ true then
    (GetOutcome.failure (GorcError.errorf "Not an Item Iterator."), i)
  else if (i.results.length : Int) - (i.index : Int) < 0 then
    (GetOutcome.panics, i)
  else
    (GetOutcome.ok ((i.results.drop i.index).map (itemFromListItem i.client)),
      { i with index := i.results.length })

/-- `Iterator.GetEvent` (src/unnamed/part_002 lines 243-267). -/
def Iterator.GetEvent (i : Iterator) : GetOutcome Event2 :=
  if i.iteratingEvents ≠ true then
    GetOutcome.failure (GorcError.errorf "Not an Event Iterator.")
  else
    match i.results[i.index]? with
    | none => GetOutcome.panics
    | some r => GetOutcome.ok (event2FromListItem i.client r)

/-- `Iterator.GetEventPage` (src/unnamed/part_002 lines 273-296). -/
def Iterator.GetEventPage (i : Iterator) : GetOutcome (List Event2) × Iterator :=
  if i.iteratingEvents ≠ true then
    (GetOutcome.failure (GorcError.errorf "Not an Event Iterator."), i)
  else if (i.results.length : Int) - (i.index : Int) < 0 then
    (GetOutcome.panics, i)
  else
    (GetOutcome.ok ((i.results.drop i.index).map (event2FromListItem i.client)),
      { i with index := i.results.length })

/-- `Collection.List` (src/kv_gorc2.go lines 237-267).  The argument
`path` is the listing path built from the collection name and the
URL-encoded `ListQuery` (lines 238-259, plain string construction);
the function returns the Iterator literal of lines 262-266.  The
factories `ListRefs` (kv_gorc2.go 197-201), `Search` (kv_gorc2.go
356-360) and `GetLinks` (graph_gorc2.go 62-66) build the same literal. -/
def Collection.List (c : Gorc.Collection) (path : String) : Iterator :=
  { Error := none
    TotalCount := 0
    client := c.client
    done := false
    index := 0
    iteratingEvents := false
    iteratingItems := true
    next := path
    results := [] }

/-- `Collection.ListEvents` (src/unnamed/part_001 lines 409-469): the
event-mode Iterator literal of lines 464-468. -/
def Collection.ListEvents (c : Gorc.Collection) (path : String) : Iterator :=
  { Error := none
    TotalCount := 0
    client := c.client
    done := false
    index := 0
    iteratingEvents := true
    iteratingItems := false
    next := path
    results := [] }

/-- Zero value of `jsonListItem`, used only as the default of `List.getD`
when recording the entry the iterator currently points at. -/
def defaultEntry : JsonListItem :=
  { Distance := 0, Ordinal := 0
    Path := { Collection := "", Key := "", Ordinal := 0, Ref := ""
              Timestamp := 0, Tombstone := false, Type_ := "" }
    RefTime := 0, Score := 0, Timestamp := 0, Value := "" }

/-- Entries carried by one scripted reply: a page contributes its
results, a failed fetch contributes none. -/
def okEntries : FetchReply → List JsonListItem
  | FetchReply.ok page => page.Results
  | FetchReply.err _ => []

/-- Concatenation, in order, of the entries of the `n` scripted replies
starting at reply counter `a`. -/
def pagesFrom (f : Nat → FetchReply) (a : Nat) : Nat → List JsonListItem
  | 0 => []
  | n + 1 => okEntries (f a) ++ pagesFrom f (a + 1) n

/-- Total number of entries across the `n` scripted replies starting at
reply counter `a`. -/
def fetchedEntryCount (f : Nat → FetchReply) (a : Nat) : Nat → Nat
  | 0 => 0
  | n + 1 => (okEntries (f a)).length + fetchedEntryCount f (a + 1) n

/-- Result of driving an iterator loop: the values delivered (one group
per loop step), whether the loop witnessed the first `false` return
(`stopped`, as opposed to running out of fuel or hitting an accessor
breakdown), and the final iterator and world. -/
structure RunResult (α : Type) where
  delivered : List α
  stopped : Bool
  iter : Iterator
  world : World

/-- Repeated `Next()` calls until the first `false` return, recording
after every `true` return the raw entry the iterator then points at
(`i.results[i.index]`). -/
def runNextCollect : Nat → Iterator → World → RunResult JsonListItem
  | 0, i, w => ⟨[], false, i, w⟩
  | fuel + 1, i, w =>
    match i.Next w with
    | (false, i1, w1) => ⟨[], true, i1, w1⟩
    | (true, i1, w1) =>
      let r := runNextCollect fuel i1 w1
      ⟨i1.results.getD i1.index defaultEntry :: r.delivered, r.stopped, r.iter, r.world⟩

/-- The consumer loop of the spec: `Next()` until the first `false`
return, calling `Get()` after every `true` return.  A `Get()` breakdown
(wrong mode or out-of-range index) aborts the loop with
`stopped = false`; the theorems show it never occurs on this path. -/
def runNextGet : Nat → Iterator → World → RunResult Item
  | 0, i, w => ⟨[], false, i, w⟩
  | fuel + 1, i, w =>
    match i.Next w with
    | (false, i1, w1) => ⟨[], true, i1, w1⟩
    | (true, i1, w1) =>
      match i1.Get with
      | GetOutcome.ok item =>
        let r := runNextGet fuel i1 w1
        ⟨item :: r.delivered, r.stopped, r.iter, r.world⟩
      | _ => ⟨[], false, i1, w1⟩

/-- The page-at-a-time consumer loop of the spec: `NextPage()` until the
first `false` return, draining the buffered page with `GetPage()` after
every `true` return. -/
def runPageGet : Nat → Iterator → World → RunResult Item
  | 0, i, w => ⟨[], false, i, w⟩
  | fuel + 1, i, w =>
    match i.NextPage w with
    | (false, i1, w1) => ⟨[], true, i1, w1⟩
    | (true, i1, w1) =>
      match i1.GetPage with
      | (GetOutcome.ok items, i2) =>
        let r := runPageGet fuel i2 w1
        ⟨items ++ r.delivered, r.stopped, r.iter, r.world⟩
      | (_, i2) => ⟨[], false, i2, w1⟩

/-- `StopsAt f a tok b raw`: starting a fetch chain at reply counter `a`
with stored continuation token `tok`, the chain consumes the scripted
replies `a, a+1, ...` and stops with reply counter `b`, having gathered
the raw entries `raw`.  A chain stops on an empty token, on a failed
fetch, or on a fetched page with no entries; a fetched page with entries
continues the chain with the trimmed token of that page. -/
inductive StopsAt (f : Nat → FetchReply) : Nat → String → Nat → List JsonListItem → Prop where
  | emptyTok (a : Nat) : StopsAt f a "" a []
  | errReply (a : Nat) (tok : String) (e : GorcError) (ht : tok ≠ "")
      (hr : f a = FetchReply.err e) : StopsAt f a tok (a + 1) []
  | emptyPage (a : Nat) (tok : String) (page : JsonList) (ht : tok ≠ "")
      (hr : f a = FetchReply.ok page) (hp : page.Results = []) :
      StopsAt f a tok (a + 1) []
  | fullPage (a : Nat) (tok : String) (page : JsonList) (b : Nat)
      (acc : List JsonListItem) (ht : tok ≠ "") (hr : f a = FetchReply.ok page)
      (hp : page.Results ≠ [])
      (hrest : StopsAt f (a + 1) (trimPrefixV0 page.Next) b acc) :
      StopsAt f a tok b (page.Results ++ acc)

def eA : JsonListItem := { defaultEntry with Value := "a" }
def eB : JsonListItem := { defaultEntry with Value := "b" }
def cW : Gorc.Collection := { Name := "c", client := { APIHost := "", authToken := "" } }
def page1 : JsonList :=
  { Count := 2, TotalCount := 0, Next := "/v0/c?limit=2&offset=2", Prev := "", Results := [eA, eB] }
def page2 : JsonList := { Count := 0, TotalCount := 0, Next := "", Prev := "", Results := [] }
def scriptW : World :=
  { fetcher := fun k =>
      [FetchReply.ok page1, FetchReply.ok page2].getD k (FetchReply.err (GorcError.errorf "no"))
    calls := 0, requested := [] }

/-- The scripted reply used where a test needs a fetch collaborator that
would fail if consulted. -/
def errWorld : World :=
  { fetcher := fun _ => FetchReply.err (GorcError.errorf "no reply scripted")
    calls := 0, requested := [] }

/-- A live iterator state whose buffered page is fully consumed and whose
stored continuation token is empty: one entry, read position at it, no
token. -/
def c1Iter : Iterator :=
  { Error := none, TotalCount := 0, client := { APIHost := "", authToken := "" }
    done := false, index := 0, iteratingEvents := false, iteratingItems := true
    next := "", results := [defaultEntry] }

/-- A live fully-consumed buffered page with entries whose continuation
token came back absent. -/
def c3Iter : Iterator :=
  { Error := none, TotalCount := 0, client := { APIHost := "", authToken := "" }
    done := false, index := 1, iteratingEvents := false, iteratingItems := true
    next := "", results := [eA, eB] }

/-- The halted iterator reached from a fresh listing iterator whose
initial path is empty: the first `Next()` returns false marking it
done. -/
def c4Iter : Iterator := { Collection.List cW "" with done := true }

/-- An iterator carrying a recorded terminal error together with a
buffered page that still has an unread entry. -/
def c5Iter : Iterator :=
  { Error := some (GorcError.errorf "boom"), TotalCount := 0
    client := { APIHost := "", authToken := "" }, done := false, index := 1
    iteratingEvents := false, iteratingItems := true, next := "tok"
    results := [eA, eB] }

/-- First page of the sticky-total-count scenario: one entry and a
reported total count of 42. -/
def page42a : JsonList :=
  { Count := 1, TotalCount := 42, Next := "/v0/n", Prev := "", Results := [eA] }

/-- Second page of the sticky-total-count scenario: no entries and the
total count omitted (zero). -/
def page42b : JsonList :=
  { Count := 0, TotalCount := 0, Next := "", Prev := "", Results := [] }

/-- World scripting the sticky-total-count scenario. -/
def w42 : World :=
  { fetcher := fun k =>
      [FetchReply.ok page42a, FetchReply.ok page42b].getD k
        (FetchReply.err (GorcError.errorf "no reply scripted"))
    calls := 0, requested := [] }

/-- A live item iterator holding an unconsumed buffered page whose
continuation token came back absent. -/
def c7Iter : Iterator :=
  { Error := none, TotalCount := 0, client := { APIHost := "", authToken := "" }
    done := false, index := 0, iteratingEvents := false, iteratingItems := true
    next := "", results := [eA] }

/-- The state after draining a page and fetching a page with no entries:
done, empty buffer, read position past it (fetchResults does not reset
`index` on an empty page). -/
def c7BadIter : Iterator :=
  { Error := none, TotalCount := 0, client := { APIHost := "", authToken := "" }
    done := true, index := 1, iteratingEvents := false, iteratingItems := true
    next := "", results := [] }

theorem fetch_cases (i : Iterator) (w : World) :
    (i.next = "" ∧ i.fetchResults w = (false, { i with done := true }, w))
  ∨ (∃ e, i.next ≠ "" ∧ w.fetcher w.calls = FetchReply.err e ∧
      i.fetchResults w = (false, { i with Error := some e }, w.consume i.next))
  ∨ (∃ page, i.next ≠ "" ∧ w.fetcher w.calls = FetchReply.ok page ∧ page.Results = [] ∧
      i.fetchResults w = (false,
        { i with next := trimPrefixV0 page.Next, results := page.Results, done := true,
                 TotalCount := if page.TotalCount ≠ 0 then page.TotalCount else i.TotalCount },
        w.consume i.next))
  ∨ (∃ page, i.next ≠ "" ∧ w.fetcher w.calls = FetchReply.ok page ∧ page.Results ≠ [] ∧
      i.fetchResults w = (!i.done,
        { i with next := trimPrefixV0 page.Next, results := page.Results, index := 0,
                 TotalCount := if page.TotalCount ≠ 0 then page.TotalCount else i.TotalCount },
        w.consume i.next)) := by
  by_cases h : i.next = ""
  · left
    refine ⟨h, ?_⟩
    unfold Iterator.fetchResults
    simp [h]
  · cases hr : w.fetcher w.calls with
    | err e =>
      right; left
      refine ⟨e, h, rfl, ?_⟩
      unfold Iterator.fetchResults
      simp [h, hr]
    | ok page =>
      by_cases hp : page.Results = []
      · right; right; left
        refine ⟨page, h, rfl, hp, ?_⟩
        unfold Iterator.fetchResults
        simp [h, hr, hp]
        split <;> exact ⟨rfl, rfl⟩
      · right; right; right
        refine ⟨page, h, rfl, hp, ?_⟩
        unfold Iterator.fetchResults
        simp [h, hr, List.length_eq_zero.not.mpr hp]
        split <;> exact ⟨rfl, rfl⟩

theorem next_cases (i : Iterator) (w : World) :
    ((i.done = true ∨ i.Error ≠ none) ∧ i.Next w = (false, i, w))
  ∨ (i.done = false ∧ i.Error = none ∧ (i.index : Int) < (i.results.length : Int) - 1 ∧
      i.Next w = (true, { i with index := i.index + 1 }, w))
  ∨ (i.done = false ∧ i.Error = none ∧ ¬((i.index : Int) < (i.results.length : Int) - 1) ∧
      i.Next w = i.fetchResults w) := by
  cases hd : i.done with
  | true =>
    left
    refine ⟨Or.inl rfl, ?_⟩
    unfold Iterator.Next
    simp [hd]
  | false =>
    cases he : i.Error with
    | some e =>
      left
      refine ⟨Or.inr (by simp [he]), ?_⟩
      unfold Iterator.Next
      simp [he]
    | none =>
      by_cases hu : (i.index : Int) < (i.results.length : Int) - 1
      · right; left
        refine ⟨rfl, rfl, hu, ?_⟩
        unfold Iterator.Next
        simp [hd, he, hu]
      · right; right
        refine ⟨rfl, rfl, hu, ?_⟩
        unfold Iterator.Next
        simp [hd, he, hu]

theorem nextPage_cases (i : Iterator) (w : World) :
    ((i.done = true ∨ i.Error ≠ none) ∧ i.NextPage w = (false, i, w))
  ∨ (i.done = false ∧ i.Error = none ∧ i.NextPage w = i.fetchResults w) := by
  cases hd : i.done with
  | true =>
    left
    refine ⟨Or.inl rfl, ?_⟩
    unfold Iterator.NextPage
    simp [hd]
  | false =>
    cases he : i.Error with
    | some e =>
      left
      refine ⟨Or.inr (by simp [he]), ?_⟩
      unfold Iterator.NextPage
      simp [he]
    | none =>
      right
      refine ⟨rfl, rfl, ?_⟩
      unfold Iterator.NextPage
      simp [hd, he]

theorem fetch_preserves (i : Iterator) (w : World) :
    (i.fetchResults w).2.1.client = i.client ∧
    (i.fetchResults w).2.1.iteratingItems = i.iteratingItems ∧
    (i.fetchResults w).2.1.iteratingEvents = i.iteratingEvents ∧
    (i.fetchResults w).2.2.fetcher = w.fetcher := by
  rcases fetch_cases i w with ⟨h, heq⟩ | ⟨e, h, hr, heq⟩ | ⟨page, h, hr, hp, heq⟩ |
    ⟨page, h, hr, hp, heq⟩ <;> rw [heq] <;> exact ⟨rfl, rfl, rfl, rfl⟩

theorem next_preserves (i : Iterator) (w : World) :
    (i.Next w).2.1.client = i.client ∧
    (i.Next w).2.1.iteratingItems = i.iteratingItems ∧
    (i.Next w).2.1.iteratingEvents = i.iteratingEvents ∧
    (i.Next w).2.2.fetcher = w.fetcher := by
  rcases next_cases i w with ⟨h, heq⟩ | ⟨hd, he, hu, heq⟩ | ⟨hd, he, hu, heq⟩
  · rw [heq]; exact ⟨rfl, rfl, rfl, rfl⟩
  · rw [heq]; exact ⟨rfl, rfl, rfl, rfl⟩
  · rw [heq]; exact fetch_preserves i w

theorem nextPage_preserves (i : Iterator) (w : World) :
    (i.NextPage w).2.1.client = i.client ∧
    (i.NextPage w).2.1.iteratingItems = i.iteratingItems ∧
    (i.NextPage w).2.1.iteratingEvents = i.iteratingEvents ∧
    (i.NextPage w).2.2.fetcher = w.fetcher := by
  rcases nextPage_cases i w with ⟨h, heq⟩ | ⟨hd, he, heq⟩
  · rw [heq]; exact ⟨rfl, rfl, rfl, rfl⟩
  · rw [heq]; exact fetch_preserves i w

theorem stopsAt_le {f : Nat → FetchReply} {a : Nat} {tok : String} {b : Nat}
    {raw : List JsonListItem} (h : StopsAt f a tok b raw) : a ≤ b := by
  induction h with
  | emptyTok a => exact Nat.le_refl a
  | errReply a tok e ht hr => exact Nat.le_succ a
  | emptyPage a tok page ht hr hp => exact Nat.le_succ a
  | fullPage a tok page b acc ht hr hp hrest ih => omega

theorem stopsAt_det {f : Nat → FetchReply} {a : Nat} {tok : String} {b1 b2 : Nat}
    {r1 r2 : List JsonListItem} (h1 : StopsAt f a tok b1 r1)
    (h2 : StopsAt f a tok b2 r2) : b1 = b2 ∧ r1 = r2 := by
  induction h1 generalizing b2 r2 with
  | emptyTok a =>
    cases h2 with
    | emptyTok => exact ⟨rfl, rfl⟩
    | errReply _ _ e ht hr => exact absurd rfl ht
    | emptyPage _ _ page ht hr hp => exact absurd rfl ht
    | fullPage _ _ page b acc ht hr hp hrest => exact absurd rfl ht
  | errReply a tok e ht hr =>
    cases h2 with
    | emptyTok => exact absurd rfl ht
    | errReply _ _ e2 ht2 hr2 => exact ⟨rfl, rfl⟩
    | emptyPage _ _ page ht2 hr2 hp2 => rw [hr] at hr2; exact absurd hr2 (by simp)
    | fullPage _ _ page b acc ht2 hr2 hp2 hrest => rw [hr] at hr2; exact absurd hr2 (by simp)
  | emptyPage a tok page ht hr hp =>
    cases h2 with
    | emptyTok => exact absurd rfl ht
    | errReply _ _ e2 ht2 hr2 => rw [hr] at hr2; exact absurd hr2 (by simp)
    | emptyPage _ _ page2 ht2 hr2 hp2 => exact ⟨rfl, rfl⟩
    | fullPage _ _ page2 b acc ht2 hr2 hp2 hrest =>
      rw [hr] at hr2
      cases hr2
      exact absurd hp hp2
  | fullPage a tok page b acc ht hr hp hrest ih =>
    cases h2 with
    | emptyTok => exact absurd rfl ht
    | errReply _ _ e2 ht2 hr2 => rw [hr] at hr2; exact absurd hr2 (by simp)
    | emptyPage _ _ page2 ht2 hr2 hp2 =>
      rw [hr] at hr2
      cases hr2
      exact absurd hp2 hp
    | fullPage _ _ page2 b2 acc2 ht2 hr2 hp2 hrest2 =>
      rw [hr] at hr2
      cases hr2
      obtain ⟨hb, hacc⟩ := ih hrest2
      exact ⟨hb, by rw [hacc]⟩

theorem pagesFrom_length (f : Nat → FetchReply) (a n : Nat) :
    (pagesFrom f a n).length = fetchedEntryCount f a n := by
  induction n generalizing a with
  | zero => rfl
  | succ n ih => simp [pagesFrom, fetchedEntryCount, ih]

theorem stopsAt_pagesFrom {f : Nat → FetchReply} {a : Nat} {tok : String} {b : Nat}
    {raw : List JsonListItem} (h : StopsAt f a tok b raw) :
    raw = pagesFrom f a (b - a) := by
  induction h with
  | emptyTok a => simp [pagesFrom]
  | errReply a tok e ht hr => simp [pagesFrom, okEntries, hr]
  | emptyPage a tok page ht hr hp => simp [pagesFrom, okEntries, hr, hp]
  | fullPage a tok page b acc ht hr hp hrest ih =>
    have hle : a + 1 ≤ b := stopsAt_le hrest
    have hsub : b - a = (b - (a + 1)) + 1 := by omega
    rw [hsub]
    simp [pagesFrom, okEntries, hr]
    rw [ih]

theorem runNextCollect_spec (fuel : Nat) :
    ∀ (i : Iterator) (w : World), i.done = false → i.Error = none →
    (runNextCollect fuel i w).stopped = true →
    ∃ raw, StopsAt w.fetcher w.calls i.next ((runNextCollect fuel i w).world).calls raw ∧
      (runNextCollect fuel i w).delivered = i.results.drop (i.index + 1) ++ raw := by
  induction fuel with
  | zero =>
    intro i w hd he hs
    simp [runNextCollect] at hs
  | succ fuel ih =>
    intro i w hd he hs
    rcases next_cases i w with ⟨hh, heq⟩ | ⟨_, _, hu, heq⟩ | ⟨_, _, hu, heq⟩
    · rcases hh with hh | hh
      · rw [hd] at hh; exact absurd hh (by simp)
      · exact absurd he hh
    · have hidx : i.index + 1 < i.results.length := by omega
      simp only [runNextCollect, heq] at hs ⊢
      obtain ⟨raw, hst, hdel⟩ := ih { i with index := i.index + 1 } w hd he hs
      refine ⟨raw, hst, ?_⟩
      rw [hdel]
      rw [List.drop_eq_getElem_cons hidx, List.getD_eq_getElem _ _ hidx]
      rfl
    · have hnil : i.results.drop (i.index + 1) = [] :=
        List.drop_eq_nil_of_le (by omega)
      rcases fetch_cases i w with ⟨ht, feq⟩ | ⟨e, ht, hr, feq⟩ | ⟨page, ht, hr, hp, feq⟩ |
        ⟨page, ht, hr, hp, feq⟩
      · rw [feq] at heq
        simp only [runNextCollect, heq] at hs ⊢
        refine ⟨[], ?_, by simp [hnil]⟩
        rw [ht]
        exact StopsAt.emptyTok w.calls
      · rw [feq] at heq
        simp only [runNextCollect, heq] at hs ⊢
        refine ⟨[], ?_, by simp [hnil]⟩
        exact StopsAt.errReply w.calls i.next e ht hr
      · rw [feq] at heq
        simp only [runNextCollect, heq] at hs ⊢
        refine ⟨[], ?_, by simp [hnil]⟩
        exact StopsAt.emptyPage w.calls i.next page ht hr hp
      · rw [feq] at heq
        nth_rewrite 1 [hd] at heq
        simp only [Bool.not_false] at heq
        simp only [runNextCollect, heq] at hs ⊢
        obtain ⟨raw, hst, hdel⟩ :=
          ih { i with next := trimPrefixV0 page.Next, results := page.Results, index := 0,
                      TotalCount := if page.TotalCount ≠ 0 then page.TotalCount else i.TotalCount }
            (w.consume i.next) hd he hs
        refine ⟨page.Results ++ raw, ?_, ?_⟩
        · exact StopsAt.fullPage w.calls i.next page _ raw ht hr hp hst
        · rw [hdel, hnil]
          rcases hres : page.Results with _ | ⟨x, xs⟩
          · exact absurd hres hp
          · simp [hres]

theorem runNextGet_spec (fuel : Nat) :
    ∀ (i : Iterator) (w : World), i.done = false → i.Error = none →
    i.iteratingItems = true →
    (runNextGet fuel i w).stopped = true →
    ∃ raw, StopsAt w.fetcher w.calls i.next ((runNextGet fuel i w).world).calls raw ∧
      (runNextGet fuel i w).delivered =
        (i.results.drop (i.index + 1) ++ raw).map (itemFromListItem i.client) := by
  induction fuel with
  | zero =>
    intro i w hd he hm hs
    simp [runNextGet] at hs
  | succ fuel ih =>
    intro i w hd he hm hs
    rcases next_cases i w with ⟨hh, heq⟩ | ⟨_, _, hu, heq⟩ | ⟨_, _, hu, heq⟩
    · rcases hh with hh | hh
      · rw [hd] at hh; exact absurd hh (by simp)
      · exact absurd he hh
    · have hidx : i.index + 1 < i.results.length := by omega
      have hget : Iterator.Get { i with index := i.index + 1 } =
          GetOutcome.ok (itemFromListItem i.client (i.results.get ⟨i.index + 1, hidx⟩)) := by
        unfold Iterator.Get
        simp [hm, List.getElem?_eq_getElem hidx]
      simp only [runNextGet, heq, hget] at hs ⊢
      obtain ⟨raw, hst, hdel⟩ := ih { i with index := i.index + 1 } w hd he hm hs
      refine ⟨raw, hst, ?_⟩
      rw [hdel, List.drop_eq_getElem_cons hidx]
      simp only [List.cons_append, List.map_cons, List.get_eq_getElem]
    · have hnil : i.results.drop (i.index + 1) = [] :=
        List.drop_eq_nil_of_le (by omega)
      rcases fetch_cases i w with ⟨ht, feq⟩ | ⟨e, ht, hr, feq⟩ | ⟨page, ht, hr, hp, feq⟩ |
        ⟨page, ht, hr, hp, feq⟩
      · rw [feq] at heq
        simp only [runNextGet, heq] at hs ⊢
        refine ⟨[], ?_, by simp [hnil]⟩
        rw [ht]
        exact StopsAt.emptyTok w.calls
      · rw [feq] at heq
        simp only [runNextGet, heq] at hs ⊢
        refine ⟨[], ?_, by simp [hnil]⟩
        exact StopsAt.errReply w.calls i.next e ht hr
      · rw [feq] at heq
        simp only [runNextGet, heq] at hs ⊢
        refine ⟨[], ?_, by simp [hnil]⟩
        exact StopsAt.emptyPage w.calls i.next page ht hr hp
      · rw [feq] at heq
        nth_rewrite 1 [hd] at heq
        simp only [Bool.not_false] at heq
        have hidx0 : 0 < page.Results.length := List.length_pos.mpr hp
        have hget : Iterator.Get
            { i with next := trimPrefixV0 page.Next, results := page.Results, index := 0,
                     TotalCount := if page.TotalCount ≠ 0 then page.TotalCount else i.TotalCount } =
            GetOutcome.ok (itemFromListItem i.client (page.Results.get ⟨0, hidx0⟩)) := by
          unfold Iterator.Get
          simp [hm, List.getElem?_eq_getElem hidx0]
        simp only [runNextGet, heq, hget] at hs ⊢
        obtain ⟨raw, hst, hdel⟩ :=
          ih { i with next := trimPrefixV0 page.Next, results := page.Results, index := 0,
                      TotalCount := if page.TotalCount ≠ 0 then page.TotalCount else i.TotalCount }
            (w.consume i.next) hd he hm hs
        refine ⟨page.Results ++ raw, ?_, ?_⟩
        · exact StopsAt.fullPage w.calls i.next page _ raw ht hr hp hst
        · rw [hdel, hnil]
          conv_rhs => rw [← List.drop_zero page.Results, List.drop_eq_getElem_cons hidx0]
          simp

theorem runPageGet_spec (fuel : Nat) :
    ∀ (i : Iterator) (w : World), i.done = false → i.Error = none →
    i.iteratingItems = true →
    (runPageGet fuel i w).stopped = true →
    ∃ raw, StopsAt w.fetcher w.calls i.next ((runPageGet fuel i w).world).calls raw ∧
      (runPageGet fuel i w).delivered = raw.map (itemFromListItem i.client) := by
  induction fuel with
  | zero =>
    intro i w hd he hm hs
    simp [runPageGet] at hs
  | succ fuel ih =>
    intro i w hd he hm hs
    rcases nextPage_cases i w with ⟨hh, heq⟩ | ⟨_, _, heq⟩
    · rcases hh with hh | hh
      · rw [hd] at hh; exact absurd hh (by simp)
      · exact absurd he hh
    · rcases fetch_cases i w with ⟨ht, feq⟩ | ⟨e, ht, hr, feq⟩ | ⟨page, ht, hr, hp, feq⟩ |
        ⟨page, ht, hr, hp, feq⟩
      · rw [feq] at heq
        simp only [runPageGet, heq] at hs ⊢
        refine ⟨[], ?_, by simp⟩
        rw [ht]
        exact StopsAt.emptyTok w.calls
      · rw [feq] at heq
        simp only [runPageGet, heq] at hs ⊢
        refine ⟨[], ?_, by simp⟩
        exact StopsAt.errReply w.calls i.next e ht hr
      · rw [feq] at heq
        simp only [runPageGet, heq] at hs ⊢
        refine ⟨[], ?_, by simp⟩
        exact StopsAt.emptyPage w.calls i.next page ht hr hp
      · rw [feq] at heq
        nth_rewrite 1 [hd] at heq
        simp only [Bool.not_false] at heq
        have hgp : Iterator.GetPage
            { i with next := trimPrefixV0 page.Next, results := page.Results, index := 0,
                     TotalCount := if page.TotalCount ≠ 0 then page.TotalCount else i.TotalCount } =
            (GetOutcome.ok (page.Results.map (itemFromListItem i.client)),
              { i with next := trimPrefixV0 page.Next, results := page.Results,
                       index := page.Results.length,
                       TotalCount := if page.TotalCount ≠ 0 then page.TotalCount else i.TotalCount }) := by
          unfold Iterator.GetPage
          simp [hm]
        simp only [runPageGet, heq, hgp] at hs ⊢
        obtain ⟨raw, hst, hdel⟩ :=
          ih { i with next := trimPrefixV0 page.Next, results := page.Results,
                      index := page.Results.length,
                      TotalCount := if page.TotalCount ≠ 0 then page.TotalCount else i.TotalCount }
            (w.consume i.next) hd he hm hs
        refine ⟨page.Results ++ raw, ?_, ?_⟩
        · exact StopsAt.fullPage w.calls i.next page _ raw ht hr hp hst
        · rw [hdel]
          simp

theorem next_noop {i : Iterator} (w : World) (h : i.done = true ∨ i.Error ≠ none) :
    i.Next w = (false, i, w) := by
  rcases next_cases i w with ⟨hh, heq⟩ | ⟨hd, he, hu, heq⟩ | ⟨hd, he, hu, heq⟩
  · exact heq
  · rcases h with h | h
    · rw [hd] at h; exact absurd h (by simp)
    · exact absurd he h
  · rcases h with h | h
    · rw [hd] at h; exact absurd h (by simp)
    · exact absurd he h

theorem nextPage_noop {i : Iterator} (w : World) (h : i.done = true ∨ i.Error ≠ none) :
    i.NextPage w = (false, i, w) := by
  rcases nextPage_cases i w with ⟨hh, heq⟩ | ⟨hd, he, heq⟩
  · exact heq
  · rcases h with h | h
    · rw [hd] at h; exact absurd h (by simp)
    · exact absurd he h

theorem next_incr {i : Iterator} (w : World) (hd : i.done = false) (he : i.Error = none)
    (hu : (i.index : Int) < (i.results.length : Int) - 1) :
    i.Next w = (true, { i with index := i.index + 1 }, w) := by
  rcases next_cases i w with ⟨hh, heq⟩ | ⟨_, _, _, heq⟩ | ⟨_, _, hu2, heq⟩
  · rcases hh with hh | hh
    · rw [hd] at hh; exact absurd hh (by simp)
    · exact absurd he hh
  · exact heq
  · exact absurd hu hu2

theorem next_fetch {i : Iterator} (w : World) (hd : i.done = false) (he : i.Error = none)
    (hu : ¬((i.index : Int) < (i.results.length : Int) - 1)) :
    i.Next w = i.fetchResults w := by
  rcases next_cases i w with ⟨hh, heq⟩ | ⟨_, _, hu2, heq⟩ | ⟨_, _, _, heq⟩
  · rcases hh with hh | hh
    · rw [hd] at hh; exact absurd hh (by simp)
    · exact absurd he hh
  · exact absurd hu2 hu
  · exact heq

theorem nextPage_fetch {i : Iterator} (w : World) (hd : i.done = false)
    (he : i.Error = none) : i.NextPage w = i.fetchResults w := by
  rcases nextPage_cases i w with ⟨hh, heq⟩ | ⟨_, _, heq⟩
  · rcases hh with hh | hh
    · rw [hd] at hh; exact absurd hh (by simp)
    · exact absurd he hh
  · exact heq

theorem fetch_emptyTok {i : Iterator} (w : World) (ht : i.next = "") :
    i.fetchResults w = (false, { i with done := true }, w) := by
  unfold Iterator.fetchResults
  simp [ht]

theorem fetch_err {i : Iterator} (w : World) {e : GorcError} (ht : i.next ≠ "")
    (hr : w.fetcher w.calls = FetchReply.err e) :
    i.fetchResults w = (false, { i with Error := some e }, w.consume i.next) := by
  unfold Iterator.fetchResults
  simp [ht, hr]

theorem fetch_ok_nil {i : Iterator} (w : World) {page : JsonList} (ht : i.next ≠ "")
    (hr : w.fetcher w.calls = FetchReply.ok page) (hp : page.Results = []) :
    i.fetchResults w = (false,
      { i with next := trimPrefixV0 page.Next, results := page.Results, done := true,
               TotalCount := if page.TotalCount ≠ 0 then page.TotalCount else i.TotalCount },
      w.consume i.next) := by
  rcases fetch_cases i w with ⟨ht2, feq⟩ | ⟨e, ht2, hr2, feq⟩ | ⟨page2, ht2, hr2, hp2, feq⟩ |
    ⟨page2, ht2, hr2, hp2, feq⟩
  · exact absurd ht2 ht
  · rw [hr] at hr2; simp at hr2
  · rw [hr] at hr2
    cases hr2
    exact feq
  · rw [hr] at hr2
    cases hr2
    exact absurd hp hp2

theorem fetch_ok_cons {i : Iterator} (w : World) {page : JsonList} (ht : i.next ≠ "")
    (hr : w.fetcher w.calls = FetchReply.ok page) (hp : page.Results ≠ []) :
    i.fetchResults w = (!i.done,
      { i with next := trimPrefixV0 page.Next, results := page.Results, index := 0,
               TotalCount := if page.TotalCount ≠ 0 then page.TotalCount else i.TotalCount },
      w.consume i.next) := by
  rcases fetch_cases i w with ⟨ht2, feq⟩ | ⟨e, ht2, hr2, feq⟩ | ⟨page2, ht2, hr2, hp2, feq⟩ |
    ⟨page2, ht2, hr2, hp2, feq⟩
  · exact absurd ht2 ht
  · rw [hr] at hr2; simp at hr2
  · rw [hr] at hr2
    cases hr2
    exact absurd hp2 hp
  · rw [hr] at hr2
    cases hr2
    exact feq

theorem getPage_ok {i : Iterator} (hm : i.iteratingItems = true)
    (hb : i.index ≤ i.results.length) :
    i.GetPage = (GetOutcome.ok ((i.results.drop i.index).map (itemFromListItem i.client)),
      { i with index := i.results.length }) := by
  unfold Iterator.GetPage
  rw [if_neg (by simp [hm]), if_neg (by omega)]

theorem next_returns_false_halts {i : Iterator} {w : World} {i1 : Iterator} {w1 : World}
    (h : i.Next w = (false, i1, w1)) : i1.done = true ∨ i1.Error ≠ none := by
  rcases next_cases i w with ⟨hh, heq⟩ | ⟨hd, he, hu, heq⟩ | ⟨hd, he, hu, heq⟩
  · rw [heq] at h
    simp only [Prod.mk.injEq] at h
    obtain ⟨-, hi, -⟩ := h
    rw [← hi]
    exact hh
  · rw [heq] at h
    simp at h
  · rw [heq] at h
    rcases fetch_cases i w with ⟨ht, feq⟩ | ⟨e, ht, hr, feq⟩ | ⟨page, ht, hr, hp, feq⟩ |
      ⟨page, ht, hr, hp, feq⟩
    · rw [feq] at h
      simp only [Prod.mk.injEq] at h
      obtain ⟨-, hi, -⟩ := h
      rw [← hi]
      exact Or.inl rfl
    · rw [feq] at h
      simp only [Prod.mk.injEq] at h
      obtain ⟨-, hi, -⟩ := h
      rw [← hi]
      exact Or.inr (by simp)
    · rw [feq] at h
      simp only [Prod.mk.injEq] at h
      obtain ⟨-, hi, -⟩ := h
      rw [← hi]
      exact Or.inl rfl
    · rw [feq] at h
      nth_rewrite 1 [hd] at h
      simp at h

/-- C1 counterexample: the claim *for every non-Failed non-Exhausted state
with no unread buffered entries, Next() calls the page fetcher* is false.
In the reachable state `c1Iter` (live, buffered page consumed, stored
token empty) `Next()` consumes no scripted reply: the fetch counter stays
at 0 instead of rising to 1, because `fetchResults` special-cases the
empty token (src/unnamed/part_002 lines 140-143). -/
theorem claimC1_counterexample :
    ¬ (∀ (i : Iterator) (w : World), i.done = false → i.Error = none →
        ¬((i.index : Int) < (i.results.length : Int) - 1) →
        ((i.Next w).2.2).calls = w.calls + 1) := by
  intro h
  exact absurd (h c1Iter errWorld rfl rfl (by decide)) (by decide)

/-- C1 (amended): for every iterator state, `Next()` behaves as the
advance transition with the empty-token case added.  Failed or Exhausted:
no-op returning false.  Live with unread buffered entries: increment
`index`, return true, no fetch.  Live otherwise: when the stored token is
empty, transition to done and return false *without fetching*; when it is
not, consume one scripted reply — on an error store it and return false;
on a page with no entries replace the buffer, capture the trimmed token,
set done and return false; on a page with entries replace the buffer,
reset `index` to 0, capture the trimmed token, keep a non-zero reported
total count, and return true. -/
theorem claimC1_thm (i : Iterator) (w : World) :
    ((i.done = true ∨ i.Error ≠ none) → i.Next w = (false, i, w)) ∧
    (i.done = false → i.Error = none →
      (((i.index : Int) < (i.results.length : Int) - 1) →
        i.Next w = (true, { i with index := i.index + 1 }, w)) ∧
      (¬((i.index : Int) < (i.results.length : Int) - 1) →
        (i.next = "" → i.Next w = (false, { i with done := true }, w)) ∧
        (∀ e, i.next ≠ "" → w.fetcher w.calls = FetchReply.err e →
          i.Next w = (false, { i with Error := some e }, w.consume i.next)) ∧
        (∀ page, i.next ≠ "" → w.fetcher w.calls = FetchReply.ok page →
          (page.Results = [] →
            i.Next w = (false,
              { i with next := trimPrefixV0 page.Next, results := page.Results, done := true,
                       TotalCount := if page.TotalCount ≠ 0 then page.TotalCount
                                     else i.TotalCount },
              w.consume i.next)) ∧
          (page.Results ≠ [] →
            i.Next w = (true,
              { i with next := trimPrefixV0 page.Next, results := page.Results, index := 0,
                       TotalCount := if page.TotalCount ≠ 0 then page.TotalCount
                                     else i.TotalCount },
              w.consume i.next))))) := by
  refine ⟨fun h => next_noop w h, fun hd he => ⟨fun hu => next_incr w hd he hu, fun hu => ?_⟩⟩
  refine ⟨fun ht => ?_, fun e ht hr => ?_, fun page ht hr => ⟨fun hp => ?_, fun hp => ?_⟩⟩
  · rw [next_fetch w hd he hu, fetch_emptyTok w ht]
  · rw [next_fetch w hd he hu, fetch_err w ht hr]
  · rw [next_fetch w hd he hu, fetch_ok_nil w ht hr hp]
  · rw [next_fetch w hd he hu, fetch_ok_cons w ht hr hp, hd]
    rfl

/-- C1 witness: the amended transition evaluated at the concrete state
`c1Iter`: since the stored token is empty, `Next()` marks the iterator
done and returns false with the world untouched. -/
theorem claimC1_witness :
    c1Iter.Next errWorld = (false, { c1Iter with done := true }, errWorld) :=
  (((claimC1_thm c1Iter errWorld).2 rfl rfl).2 (by decide)).1 rfl

/-- C3 counterexample: the claim that after a page with entries but an
absent token the iterator ends *by issuing one more fetch* is false: in
the state `c3Iter` (both entries of the page consumed, token empty) the
following `Next()` consumes no scripted reply — the fetch counter stays
at 0 — yet the claim requires one more fetch. -/
theorem claimC3_counterexample :
    ¬ (∀ (i : Iterator) (w : World), i.done = false → i.Error = none →
        i.results ≠ [] → ¬((i.index : Int) < (i.results.length : Int) - 1) →
        i.next = "" → ((i.Next w).2.2).calls = w.calls + 1) := by
  intro h
  exact absurd (h c3Iter errWorld rfl rfl (by decide) (by decide) rfl) (by decide)

/-- C3 (amended): when the buffered page is fully consumed and the stored
continuation token is empty, the following `Next()` terminates by
special-casing the empty token: it sets done and returns false without
performing any page fetch (the world, and so the fetch counter, is
unchanged). -/
theorem claimC3_thm (i : Iterator) (w : World) (hd : i.done = false) (he : i.Error = none)
    (hu : ¬((i.index : Int) < (i.results.length : Int) - 1)) (ht : i.next = "") :
    i.Next w = (false, { i with done := true }, w) := by
  rw [next_fetch w hd he hu, fetch_emptyTok w ht]

/-- C3 witness: the amended statement evaluated at the concrete state
`c3Iter`. -/
theorem claimC3_witness :
    c3Iter.Next errWorld = (false, { c3Iter with done := true }, errWorld) :=
  claimC3_thm c3Iter errWorld rfl rfl (by decide) rfl

/-- C4: once `Next()` has returned false, the resulting iterator is
halted — every later `Next()` and `NextPage()` call returns false with
the iterator and the world (hence the fetch counter) unchanged, and any
run of further `Next()` calls delivers nothing and changes nothing. -/
theorem claimC4_thm (i : Iterator) (w : World) (i1 : Iterator) (w1 : World)
    (h : i.Next w = (false, i1, w1)) :
    i1.Next w1 = (false, i1, w1) ∧ i1.NextPage w1 = (false, i1, w1) ∧
    ∀ n, (runNextCollect n i1 w1).delivered = [] ∧
      (runNextCollect n i1 w1).iter = i1 ∧ (runNextCollect n i1 w1).world = w1 := by
  have hh := next_returns_false_halts h
  refine ⟨next_noop w1 hh, nextPage_noop w1 hh, fun n => ?_⟩
  cases n with
  | zero => exact ⟨rfl, rfl, rfl⟩
  | succ n => simp [runNextCollect, next_noop w1 hh]

/-- C4 witness: after the first false return of `Next()` on a concrete
iterator, both `Next()` and `NextPage()` are no-ops returning false. -/
theorem claimC4_witness :
    c4Iter.Next errWorld = (false, c4Iter, errWorld) ∧
    c4Iter.NextPage errWorld = (false, c4Iter, errWorld) :=
  ⟨(claimC4_thm (Collection.List cW "") errWorld c4Iter errWorld rfl).1,
   (claimC4_thm (Collection.List cW "") errWorld c4Iter errWorld rfl).2.1⟩

/-- C2: on a freshly created iterator driven by `Next()` until the first
false return, the recorded sequence of entries the iterator points at
after each true return is exactly the concatenation, in order, of the
entries of the pages fetched during the run — so each true return lands
on a previously unread entry (entry 0 right after a page fetch, then one
entry further each time) — and in particular the number of true returns
equals the total number of entries across all pages fetched. -/
theorem claimC2_thm (c : Gorc.Collection) (path : String) (f : Nat → FetchReply)
    (a fuel : Nat)
    (hs : (runNextCollect fuel (Collection.List c path) ⟨f, a, []⟩).stopped = true) :
    (runNextCollect fuel (Collection.List c path) ⟨f, a, []⟩).delivered =
      pagesFrom f a
        ((runNextCollect fuel (Collection.List c path) ⟨f, a, []⟩).world.calls - a) ∧
    (runNextCollect fuel (Collection.List c path) ⟨f, a, []⟩).delivered.length =
      fetchedEntryCount f a
        ((runNextCollect fuel (Collection.List c path) ⟨f, a, []⟩).world.calls - a) := by
  obtain ⟨raw, hst, hdel⟩ :=
    runNextCollect_spec fuel (Collection.List c path) ⟨f, a, []⟩ rfl rfl hs
  have hraw := stopsAt_pagesFrom hst
  have h1 : (runNextCollect fuel (Collection.List c path) ⟨f, a, []⟩).delivered =
      pagesFrom f a
        ((runNextCollect fuel (Collection.List c path) ⟨f, a, []⟩).world.calls - a) := by
    rw [hdel, ← hraw]
    rfl
  exact ⟨h1, by rw [h1, pagesFrom_length]⟩

/-- C2 witness: the two-page script (two entries, then zero entries)
consumed from a fresh listing iterator delivers exactly the entries of
the fetched pages. -/
theorem claimC2_witness :
    (runNextCollect 3 (Collection.List cW "c?limit=2") scriptW).delivered =
      pagesFrom scriptW.fetcher 0
        ((runNextCollect 3 (Collection.List cW "c?limit=2") scriptW).world.calls - 0) ∧
    (runNextCollect 3 (Collection.List cW "c?limit=2") scriptW).delivered.length =
      fetchedEntryCount scriptW.fetcher 0
        ((runNextCollect 3 (Collection.List cW "c?limit=2") scriptW).world.calls - 0) :=
  claimC2_thm cW "c?limit=2" scriptW.fetcher 0 3 rfl

/-- C5 counterexample: the claim that once a terminal error is recorded
*no operation moves the index* is false: on the concrete error-carrying
state `c5Iter`, `GetPage()` moves `index` from 1 to the end of the
buffered page (src/unnamed/part_002 lines 213-237 perform no error
check). -/
theorem claimC5_counterexample :
    ¬ (∀ i : Iterator, i.Error ≠ none → ((i.GetPage).2).index = i.index) := by
  intro h
  exact absurd (h c5Iter (by decide)) (by decide)

/-- C5 (amended): once a terminal error is recorded, no operation
performs a further fetch: `Next()` and `NextPage()` return false leaving
iterator and world untouched (the accessors never touch the world at
all, so no fetch can arise elsewhere).  However the cursor is not fully
frozen: a matching-mode `GetPage()` still drains the buffered page,
moving `index` to its end. -/
theorem claimC5_thm (i : Iterator) (w : World) (e : GorcError) (h : i.Error = some e) :
    i.Next w = (false, i, w) ∧ i.NextPage w = (false, i, w) ∧
    (i.iteratingItems = true → i.index ≤ i.results.length →
      i.GetPage = (GetOutcome.ok ((i.results.drop i.index).map (itemFromListItem i.client)),
        { i with index := i.results.length })) := by
  have hh : i.done = true ∨ i.Error ≠ none := Or.inr (by simp [h])
  exact ⟨next_noop w hh, nextPage_noop w hh, fun hm hb => getPage_ok hm hb⟩

/-- C5 witness: the amended statement evaluated on the concrete
error-carrying state `c5Iter`. -/
theorem claimC5_witness :
    c5Iter.Next errWorld = (false, c5Iter, errWorld) ∧
    c5Iter.GetPage = (GetOutcome.ok
        ((c5Iter.results.drop c5Iter.index).map (itemFromListItem c5Iter.client)),
      { c5Iter with index := c5Iter.results.length }) :=
  ⟨(claimC5_thm c5Iter errWorld (GorcError.errorf "boom") rfl).1,
   (claimC5_thm c5Iter errWorld (GorcError.errorf "boom") rfl).2.2 rfl (by decide)⟩

/-- C6: the total count is sticky and zero-initialized.  Freshly created
iterators carry `TotalCount = 0`; a fetch (and hence a `Next()` call)
either leaves `TotalCount` unchanged — in particular when the fetched
page reports a zero total count — or sets it to the non-zero total count
reported by the fetched page; and in the concrete scenario where page 1
reports 42 and page 2 omits it, the iterator still reports 42 after
consuming page 2. -/
theorem claimC6_thm :
    (∀ (c : Gorc.Collection) (path : String),
      (Collection.List c path).TotalCount = 0 ∧
      (Collection.ListEvents c path).TotalCount = 0) ∧
    (∀ (i : Iterator) (w : World),
      ((i.fetchResults w).2.1.TotalCount = i.TotalCount) ∨
      (∃ page, w.fetcher w.calls = FetchReply.ok page ∧ page.TotalCount ≠ 0 ∧
        (i.fetchResults w).2.1.TotalCount = page.TotalCount)) ∧
    (∀ (i : Iterator) (w : World),
      ((i.Next w).2.1.TotalCount = i.TotalCount) ∨
      (∃ page, w.fetcher w.calls = FetchReply.ok page ∧ page.TotalCount ≠ 0 ∧
        (i.Next w).2.1.TotalCount = page.TotalCount)) ∧
    ((runNextCollect 3 (Collection.List cW "c") w42).iter.TotalCount = 42 ∧
     (runNextCollect 3 (Collection.List cW "c") w42).stopped = true) := by
  have hfetch : ∀ (i : Iterator) (w : World),
      ((i.fetchResults w).2.1.TotalCount = i.TotalCount) ∨
      (∃ page, w.fetcher w.calls = FetchReply.ok page ∧ page.TotalCount ≠ 0 ∧
        (i.fetchResults w).2.1.TotalCount = page.TotalCount) := by
    intro i w
    rcases fetch_cases i w with ⟨ht, feq⟩ | ⟨e, ht, hr, feq⟩ | ⟨page, ht, hr, hp, feq⟩ |
      ⟨page, ht, hr, hp, feq⟩
    · rw [feq]; left; rfl
    · rw [feq]; left; rfl
    · rw [feq]
      by_cases h0 : page.TotalCount = 0
      · left; simp [h0]
      · right; exact ⟨page, hr, h0, by simp [h0]⟩
    · rw [feq]
      by_cases h0 : page.TotalCount = 0
      · left; simp [h0]
      · right; exact ⟨page, hr, h0, by simp [h0]⟩
  refine ⟨fun c path => ⟨rfl, rfl⟩, hfetch, fun i w => ?_, by decide, rfl⟩
  rcases next_cases i w with ⟨hh, heq⟩ | ⟨hd, he, hu, heq⟩ | ⟨hd, he, hu, heq⟩
  · rw [heq]; left; rfl
  · rw [heq]; left; rfl
  · rw [heq]; exact hfetch i w

/-- C6 witness: a freshly created listing iterator reports a total count
of zero, and the scenario run of the theorem reports 42 after consuming
the page that omits the count. -/
theorem claimC6_witness :
    (Collection.List cW "c").TotalCount = 0 ∧
    (runNextCollect 3 (Collection.List cW "c") w42).iter.TotalCount = 42 :=
  ⟨(claimC6_thm.1 cW "c").1, claimC6_thm.2.2.2.1⟩

/-- C7 counterexample: two parts of the claim fail on the code.  First,
`GetPage()` followed immediately by `Next()` does not always trigger
exactly one fetch: on the live state `c7Iter`, whose stored token is
empty, the pair performs zero fetches.  Second, `GetPage()` does not
return the unread entries on every iterator: on the reachable drained
state `c7BadIter` the Go code calls `make` with a negative length, a
panic, instead of returning an empty page. -/
theorem claimC7_counterexample :
    (¬ (∀ (i : Iterator) (w : World), i.done = false → i.Error = none →
        i.iteratingItems = true → i.index ≤ i.results.length →
        (((i.GetPage).2).Next w).2.2.calls = w.calls + 1)) ∧
    (c7BadIter.GetPage).1 = GetOutcome.panics := by
  constructor
  · intro h
    exact absurd (h c7Iter errWorld rfl rfl rfl (by decide)) (by decide)
  · decide

/-- C7 (amended): for an item iterator whose read position is inside the
buffered page, `GetPage()` returns the entries from the read position to
the end of the page, in order, advances `index` to the page end and
touches no world state (the accessors never fetch); a `GetPage()`
followed immediately by `Next()` triggers exactly one fetch when the
stored continuation token is non-empty and none when it is empty; and
the sequence (hence the multiset) of items delivered by the
`NextPage()`+`GetPage()` loop equals the sequence delivered by the
`Next()`+`Get()` loop against the same scripted server replies. -/
theorem claimC7_thm :
    (∀ i : Iterator, i.iteratingItems = true → i.index ≤ i.results.length →
      i.GetPage = (GetOutcome.ok ((i.results.drop i.index).map (itemFromListItem i.client)),
        { i with index := i.results.length })) ∧
    (∀ (i : Iterator) (w : World), i.done = false → i.Error = none →
      i.iteratingItems = true → i.index ≤ i.results.length → i.next ≠ "" →
      (((i.GetPage).2).Next w).2.2.calls = w.calls + 1) ∧
    (∀ (i : Iterator) (w : World), i.done = false → i.Error = none →
      i.iteratingItems = true → i.index ≤ i.results.length → i.next = "" →
      ((i.GetPage).2).Next w = (false, { (i.GetPage).2 with done := true }, w)) ∧
    (∀ (c : Gorc.Collection) (path : String) (f : Nat → FetchReply) (a fuel1 fuel2 : Nat),
      (runPageGet fuel1 (Collection.List c path) ⟨f, a, []⟩).stopped = true →
      (runNextGet fuel2 (Collection.List c path) ⟨f, a, []⟩).stopped = true →
      (runPageGet fuel1 (Collection.List c path) ⟨f, a, []⟩).delivered =
        (runNextGet fuel2 (Collection.List c path) ⟨f, a, []⟩).delivered ∧
      ((runPageGet fuel1 (Collection.List c path) ⟨f, a, []⟩).delivered : Multiset Item) =
        ((runNextGet fuel2 (Collection.List c path) ⟨f, a, []⟩).delivered : Multiset Item)) := by
  refine ⟨fun i hm hb => getPage_ok hm hb, fun i w hd he hm hb ht => ?_,
    fun i w hd he hm hb ht => ?_, fun c path f a fuel1 fuel2 hs1 hs2 => ?_⟩
  · rw [getPage_ok hm hb]
    show (Iterator.Next { i with index := i.results.length } w).2.2.calls = w.calls + 1
    have hd2 : ({ i with index := i.results.length } : Iterator).done = false := hd
    have he2 : ({ i with index := i.results.length } : Iterator).Error = none := he
    have ht2 : ({ i with index := i.results.length } : Iterator).next ≠ "" := ht
    have hu2 : ¬((({ i with index := i.results.length } : Iterator).index : Int) <
        (({ i with index := i.results.length } : Iterator).results.length : Int) - 1) := by
      show ¬((i.results.length : Int) < (i.results.length : Int) - 1)
      omega
    rw [next_fetch w hd2 he2 hu2]
    rcases fetch_cases { i with index := i.results.length } w with ⟨ht3, feq⟩ |
      ⟨e, ht3, hr2, feq⟩ | ⟨page, ht3, hr2, hp2, feq⟩ | ⟨page, ht3, hr2, hp2, feq⟩
    · exact absurd ht3 ht2
    · rw [feq]; rfl
    · rw [feq]; rfl
    · rw [feq]; rfl
  · rw [getPage_ok hm hb]
    show Iterator.Next { i with index := i.results.length } w =
      (false, { ({ i with index := i.results.length } : Iterator) with done := true }, w)
    have hd2 : ({ i with index := i.results.length } : Iterator).done = false := hd
    have he2 : ({ i with index := i.results.length } : Iterator).Error = none := he
    have ht2 : ({ i with index := i.results.length } : Iterator).next = "" := ht
    have hu2 : ¬((({ i with index := i.results.length } : Iterator).index : Int) <
        (({ i with index := i.results.length } : Iterator).results.length : Int) - 1) := by
      show ¬((i.results.length : Int) < (i.results.length : Int) - 1)
      omega
    rw [next_fetch w hd2 he2 hu2, fetch_emptyTok w ht2]
  · obtain ⟨raw1, hst1, hdel1⟩ :=
      runPageGet_spec fuel1 (Collection.List c path) ⟨f, a, []⟩ rfl rfl rfl hs1
    obtain ⟨raw2, hst2, hdel2⟩ :=
      runNextGet_spec fuel2 (Collection.List c path) ⟨f, a, []⟩ rfl rfl rfl hs2
    obtain ⟨hb, hraw⟩ := stopsAt_det hst1 hst2
    have hlists : (runPageGet fuel1 (Collection.List c path) ⟨f, a, []⟩).delivered =
        (runNextGet fuel2 (Collection.List c path) ⟨f, a, []⟩).delivered := by
      rw [hdel1, hdel2, hraw]
      rfl
    exact ⟨hlists, by rw [hlists]⟩

/-- C7 witness: on the concrete two-page script, the page-at-a-time loop
and the one-at-a-time loop deliver the same items. -/
theorem claimC7_witness :
    (runPageGet 4 (Collection.List cW "c?limit=2") scriptW).delivered =
      (runNextGet 4 (Collection.List cW "c?limit=2") scriptW).delivered :=
  (claimC7_thm.2.2.2 cW "c?limit=2" scriptW.fetcher 0 4 4 rfl rfl).1

/-- C8: after every successful page fetch the stored continuation token
is the server-returned `next` path with the fixed prefix "/v0/" trimmed,
and the fetch that was just performed is recorded against the previously
stored token.  The trimming sends "/v0/c?limit=2&offset=2" to
"c?limit=2&offset=2", and in the two-page scenario (two entries with
that `next`, then zero entries) three `Next()` calls return true, true,
false with no error, the iterator done, exactly two fetches, and the
second fetch issued against the trailing path "c?limit=2&offset=2". -/
theorem claimC8_thm :
    (∀ (i : Iterator) (w : World) (page : JsonList), i.next ≠ "" →
      w.fetcher w.calls = FetchReply.ok page →
      (i.fetchResults w).2.1.next = trimPrefixV0 page.Next ∧
      (i.fetchResults w).2.2.requested = w.requested ++ [i.next]) ∧
    trimPrefixV0 "/v0/c?limit=2&offset=2" = "c?limit=2&offset=2" ∧
    ((runNextCollect 3 (Collection.List cW "c?limit=2") scriptW).delivered.length = 2 ∧
     (runNextCollect 3 (Collection.List cW "c?limit=2") scriptW).stopped = true ∧
     (runNextCollect 3 (Collection.List cW "c?limit=2") scriptW).iter.Error = none ∧
     (runNextCollect 3 (Collection.List cW "c?limit=2") scriptW).iter.done = true ∧
     (runNextCollect 3 (Collection.List cW "c?limit=2") scriptW).world.calls = 2 ∧
     (runNextCollect 3 (Collection.List cW "c?limit=2") scriptW).world.requested =
       ["c?limit=2", "c?limit=2&offset=2"]) := by
  refine ⟨fun i w page ht hr => ?_, by decide, ?_⟩
  · rcases fetch_cases i w with ⟨ht2, feq⟩ | ⟨e, ht2, hr2, feq⟩ | ⟨page2, ht2, hr2, hp2, feq⟩ |
      ⟨page2, ht2, hr2, hp2, feq⟩
    · exact absurd ht2 ht
    · rw [hr] at hr2; simp at hr2
    · rw [hr] at hr2
      cases hr2
      rw [feq]
      exact ⟨rfl, rfl⟩
    · rw [hr] at hr2
      cases hr2
      rw [feq]
      exact ⟨rfl, rfl⟩
  · exact ⟨rfl, rfl, rfl, rfl, rfl, rfl⟩

/-- C8 witness: the general token-trimming clause evaluated on a fresh
iterator against the concrete script. -/
theorem claimC8_witness :
    ((Collection.List cW "x").fetchResults scriptW).2.1.next = trimPrefixV0 page1.Next ∧
    ((Collection.List cW "x").fetchResults scriptW).2.2.requested =
      scriptW.requested ++ ["x"] :=
  claimC8_thm.1 (Collection.List cW "x") scriptW page1 (by decide) rfl

/-- C9: calling an accessor of the wrong mode returns the
wrong-iterator-kind error and leaves the iterator state untouched
(`Get`/`GetEvent` are read-only by construction and `GetPage`/
`GetEventPage` return the state unchanged), and the mode flags are fixed:
no state-changing operation alters them. -/
theorem claimC9_thm (i : Iterator) :
    (i.iteratingItems = false →
      i.Get = GetOutcome.failure (GorcError.errorf "Not an Item Iterator.") ∧
      i.GetPage = (GetOutcome.failure (GorcError.errorf "Not an Item Iterator."), i)) ∧
    (i.iteratingEvents = false →
      i.GetEvent = GetOutcome.failure (GorcError.errorf "Not an Event Iterator.") ∧
      i.GetEventPage = (GetOutcome.failure (GorcError.errorf "Not an Event Iterator."), i)) ∧
    (∀ w : World,
      ((i.Next w).2.1.iteratingItems = i.iteratingItems ∧
        (i.Next w).2.1.iteratingEvents = i.iteratingEvents) ∧
      ((i.NextPage w).2.1.iteratingItems = i.iteratingItems ∧
        (i.NextPage w).2.1.iteratingEvents = i.iteratingEvents) ∧
      (((i.GetPage).2).iteratingItems = i.iteratingItems ∧
        ((i.GetPage).2).iteratingEvents = i.iteratingEvents) ∧
      (((i.GetEventPage).2).iteratingItems = i.iteratingItems ∧
        ((i.GetEventPage).2).iteratingEvents = i.iteratingEvents)) := by
  refine ⟨fun hm => ?_, fun hm => ?_, fun w => ?_⟩
  · constructor
    · unfold Iterator.Get
      simp [hm]
    · unfold Iterator.GetPage
      simp [hm]
  · constructor
    · unfold Iterator.GetEvent
      simp [hm]
    · unfold Iterator.GetEventPage
      simp [hm]
  · refine ⟨⟨(next_preserves i w).2.1, (next_preserves i w).2.2.1⟩,
      ⟨(nextPage_preserves i w).2.1, (nextPage_preserves i w).2.2.1⟩, ?_, ?_⟩
    · unfold Iterator.GetPage
      split
      · exact ⟨rfl, rfl⟩
      · split
        · exact ⟨rfl, rfl⟩
        · exact ⟨rfl, rfl⟩
    · unfold Iterator.GetEventPage
      split
      · exact ⟨rfl, rfl⟩
      · split
        · exact ⟨rfl, rfl⟩
        · exact ⟨rfl, rfl⟩

/-- C9 witness: the item accessor on a concrete event iterator and the
event accessor on a concrete item iterator both fail with the
wrong-iterator-kind error. -/
theorem claimC9_witness :
    (Collection.ListEvents cW "p").Get =
      GetOutcome.failure (GorcError.errorf "Not an Item Iterator.") ∧
    (Collection.List cW "p").GetEvent =
      GetOutcome.failure (GorcError.errorf "Not an Event Iterator.") :=
  ⟨((claimC9_thm (Collection.ListEvents cW "p")).1 rfl).1,
   ((claimC9_thm (Collection.List cW "p")).2.1 rfl).1⟩

/-- C10: a freshly created iterator has an empty buffered page and read
position 0, and calling the matching-mode accessor before any successful
`Next()` indexes the empty results slice out of bounds — a runtime panic,
not an error return. -/
theorem claimC10_thm (c : Gorc.Collection) (path : String) :
    (Collection.List c path).results = [] ∧ (Collection.List c path).index = 0 ∧
    (Collection.List c path).Get = GetOutcome.panics ∧
    (Collection.ListEvents c path).GetEvent = GetOutcome.panics :=
  ⟨rfl, rfl, rfl, rfl⟩

end Gorc
